import Mathlib

/-!
Verification development for the multi-tenant financial-commitments tracker.

The model below is a shallow embedding of the server-side ledger code:

* `src/server/db.ts` — tenant store registry (`getTenantDb` / `initTenantDb`)
  and the commitments router (commitment creation with automatic
  `commit_number` generation, listing with filtering/sorting, search,
  update, delete);
* the payments router (`POST /payments` with its BEGIN/COMMIT/ROLLBACK
  transaction, `GET /payments`);
* the client-side payment form validation (`handlePayment`).

Monetary amounts (SQLite `DECIMAL(10,2)`, JS numbers) are modelled as `Int` (in hundredths of the currency unit: `DECIMAL(10,2)` values are exact hundredths, so integer arithmetic preserves sums and order exactly);
dates and timestamps are modelled as the strings the code stores.  SQLite
`TEXT` comparison (the default BINARY collation, i.e. memcmp on UTF-8
bytes) is modelled by codepoint-lexicographic comparison of the character
lists, which agrees with byte order because UTF-8 is codepoint-ordered.
String primitives are re-implemented structurally on `List Char` so that
every definition evaluates inside the kernel.
-/

/-- Status literal the schema default and the code write for an active
commitment (Arabic for "active"). -/
def statusActive : String := "نشط"

/-- Status literal `POST /payments` writes when a commitment is fully paid
(Arabic for "completed"). -/
def statusCompleted : String := "مكتمل"

/-- A row of the tenant `commitments` table. -/
structure Commitment where
  id : Nat
  commit_number : String
  due_date : String
  account : String
  description : String
  amount : Int
  status : String
  created_at : String
deriving Repr, DecidableEq

/-- A row of the tenant `payments` table. -/
structure Payment where
  id : Nat
  commitment_id : Nat
  method : String
  amount : Int
  payment_date : String
deriving Repr, DecidableEq

/-- One tenant's isolated store: the two tables plus the AUTOINCREMENT
counters for their integer primary keys. -/
structure TenantStore where
  commitments : List Commitment
  payments : List Payment
  nextCommitmentId : Nat
  nextPaymentId : Nat
deriving Repr, DecidableEq

/-- A freshly created tenant store (empty tables, AUTOINCREMENT at 1). -/
def emptyStore : TenantStore :=
  { commitments := [], payments := [], nextCommitmentId := 1, nextPaymentId := 1 }

/-- Codepoint-lexicographic strict order on character lists: the order
SQLite's BINARY collation gives `ORDER BY` on `TEXT` values. -/
def charListLtB : List Char → List Char → Bool
  | _, [] => false
  | [], _ :: _ => true
  | a :: as, b :: bs =>
    if a.toNat < b.toNat then true
    else if b.toNat < a.toNat then false
    else charListLtB as bs

/-- Strict BINARY-collation order on strings. -/
def strLtB (a b : String) : Bool := charListLtB a.toList b.toList

/-- Prefix match for `LIKE '<pfx>%'` (the patterns the code builds contain no
wildcard and no cased letter, so prefix matching is exact). -/
def strStartsWith (pfx s : String) : Bool := pfx.toList.isPrefixOf s.toList

/-- JS `String.prototype.split('-')`, structurally on the characters. -/
def splitDashChars : List Char → List (List Char)
  | [] => [[]]
  | c :: cs =>
    let r := splitDashChars cs
    if c = '-' then [] :: r
    else
      match r with
      | [] => [[c]]
      | h :: t => (c :: h) :: t

/-- JS `s.split('-')` as a list of strings. -/
def jsSplitDash (s : String) : List String :=
  (splitDashChars s.toList).map List.asString

/-- Value of a string of decimal digits. -/
def digitsVal (cs : List Char) : Nat :=
  cs.foldl (fun a c => a * 10 + (c.toNat - 48)) 0

/-- JS `new Date(s)` restricted to ISO `YYYY-MM-DD` date strings, returning
`(year, month)` as `getFullYear()` / `getMonth()+1` observe them, or `none`
for an Invalid Date.  (The engine-specific fallback parsing of non-ISO
strings, time components, and local-timezone offsets are outside the model;
day-of-month validity is approximated by `1 ≤ d ≤ 31`.) -/
def parseDueDate (s : String) : Option (Nat × Nat) :=
  match jsSplitDash s with
  | [ys, ms, ds] =>
    if ys.length = 4 ∧ ms.length = 2 ∧ ds.length = 2
        ∧ ys.toList.all Char.isDigit ∧ ms.toList.all Char.isDigit
        ∧ ds.toList.all Char.isDigit then
      let m := digitsVal ms.toList
      let d := digitsVal ds.toList
      if 1 ≤ m ∧ m ≤ 12 ∧ 1 ≤ d ∧ d ≤ 31 then
        some (digitsVal ys.toList, m)
      else none
    else none
  | _ => none

/-- JS `parseInt` on the strings this code feeds it (pieces of a
`split('-')`): the value of the leading digit run, `none` (NaN) when there
is no leading digit. -/
def parseIntJS (s : String) : Option Nat :=
  let ds := s.toList.takeWhile Char.isDigit
  if ds.isEmpty then none else some (digitsVal ds)

/-- JS `String.prototype.padStart(w, '0')`. -/
def padStartZero (w : Nat) (s : String) : String :=
  (List.replicate (w - s.length) '0').asString ++ s

/-- The `YYYY-MM-` (or `NaN-NaN-` for an Invalid Date) search prefix the
route computes from `due_date`:
`` `${year}-${String(dueDate.getMonth() + 1).padStart(2, '0')}-` ``
(`String(NaN)` is `"NaN"`, left unchanged by `padStart(2, '0')`). -/
def monthPfx (due_date : String) : String :=
  match parseDueDate due_date with
  | some (y, m) => Nat.repr y ++ "-" ++ padStartZero 2 (Nat.repr m) ++ "-"
  | none => "NaN-NaN-"

/-- One step of scanning for the BINARY-collation greatest value. -/
def maxStep (acc : Option String) (s : String) : Option String :=
  match acc with
  | none => some s
  | some m => if strLtB m s then some s else some m

/-- Model of `SELECT commit_number FROM commitments WHERE commit_number
LIKE ? ORDER BY commit_number DESC LIMIT 1` over a list of stored commit numbers:
the BINARY-collation greatest matching value, if any. -/
def latestCommitNumber (pfx : String) (nums : List String) : Option String :=
  (nums.filter (fun s => strStartsWith pfx s)).foldl maxStep none

/-- Model of `parseInt(latest.commit_number.split('-')[2])`: the numeric suffix of
a stored commit number; `none` is NaN — either the `[2]` piece is missing
(`parseInt(undefined)`) or it has no leading digit. -/
def commitSeqSuffix (s : String) : Option Nat :=
  match (jsSplitDash s).get? 2 with
  | none => none
  | some piece => parseIntJS piece

/-- The automatic commitment-number generation inlined in
`router.post('/')` of the commitments router: take the latest matching
`commit_number`, `parseInt` its `split('-')[2]` piece, and use that plus
one — or 1 when there is no match or the suffix parses to NaN. -/
def generateCommitNumber (db : TenantStore) (due_date : String) : String :=
  let pfx := monthPfx due_date
  let latest := latestCommitNumber pfx (db.commitments.map Commitment.commit_number)
  let nextNum : Nat :=
    match latest with
    | none => 1
    | some best =>
      match commitSeqSuffix best with
      | none => 1
      | some lastSeq => lastSeq + 1
  pfx ++ padStartZero 3 (Nat.repr nextNum)

/-- Request body of `POST /commitments` (fields the route reads). -/
structure CreateCommitmentReq where
  due_date : String
  account : String
  description : String
  amount : Int
  status : Option String
deriving Repr, DecidableEq

/-- Route `POST /commitments`: generate the commitment number, then
`INSERT INTO commitments ...` with `status || 'نشط'`.  `now` stands for the
`created_at DEFAULT CURRENT_TIMESTAMP` value the engine fills in.  A
`commit_number` UNIQUE-constraint violation makes the insert fail with no
row added (`none`); otherwise the new row id (`lastInsertRowid`) is
returned. -/
def createCommitment (db : TenantStore) (req : CreateCommitmentReq) (now : String) :
    Option Nat × TenantStore :=
  let num := generateCommitNumber db req.due_date
  if db.commitments.any (fun c => c.commit_number = num) then
    (none, db)
  else
    let row : Commitment :=
      { id := db.nextCommitmentId, commit_number := num, due_date := req.due_date,
        account := req.account, description := req.description, amount := req.amount,
        status := req.status.getD statusActive, created_at := now }
    (some db.nextCommitmentId,
      { db with commitments := db.commitments ++ [row],
                nextCommitmentId := db.nextCommitmentId + 1 })

/-- Failure inside the `POST /payments` transaction body.  The reachable
failure is the commitment lookup coming back empty, which makes the JS
`commitment.amount` access throw and control jump to the `ROLLBACK`
branch. -/
inductive PayErr where
  | commitmentNotFound
deriving Repr, DecidableEq

/-- The body of the `POST /payments` transaction, between
`BEGIN TRANSACTION` and `COMMIT`:
(a) `INSERT INTO payments ...`;
(b) `SELECT amount FROM commitments WHERE id = ?` — throws when no row;
(c) `SELECT SUM(amount) FROM payments WHERE commitment_id = ?`;
(d) `UPDATE commitments SET status = 'مكتمل' WHERE id = ?` when the sum is
`>=` the commitment amount. -/
def recordPaymentBody (db : TenantStore) (commitment_id : Nat) (amount : Int)
    (method payment_date : String) : Except PayErr TenantStore :=
  let p : Payment :=
    { id := db.nextPaymentId, commitment_id := commitment_id, method := method,
      amount := amount, payment_date := payment_date }
  let db1 : TenantStore :=
    { db with payments := db.payments ++ [p], nextPaymentId := db.nextPaymentId + 1 }
  match db1.commitments.find? (fun c => c.id = commitment_id) with
  | none => .error .commitmentNotFound
  | some c =>
    let totalPaid : Int :=
      ((db1.payments.filter (fun q => q.commitment_id = commitment_id)).map
        Payment.amount).sum
    if totalPaid ≥ c.amount then
      .ok { db1 with
              commitments := db1.commitments.map (fun r =>
                if r.id = commitment_id then { r with status := statusCompleted } else r) }
    else .ok db1

/-- Route `POST /payments`: the body above wrapped in the storage engine's native
transaction — `COMMIT` keeps the body's final state, any error runs
`ROLLBACK`, restoring the state from before the call, and is re-thrown. -/
def recordPayment (db : TenantStore) (commitment_id : Nat) (amount : Int)
    (method payment_date : String) : Except PayErr Unit × TenantStore :=
  match recordPaymentBody db commitment_id amount method payment_date with
  | .ok db1 => (.ok (), db1)
  | .error e => (.error e, db)

/-- Outcome of the client-side payment form's `handlePayment` validation:
either an error message is shown and no request is made, or the payment is
submitted to `POST /payments`. -/
inductive FormAction where
  | errorMsg : String → FormAction
  | submitPayment : Int → FormAction
deriving Repr, DecidableEq

/-- The validation at the top of the frontend `handlePayment` handler:
`amount <= 0` and `amount > commitment.remainingAmount` each set an error
and return before any `fetch('/api/payments')` is issued. -/
def handlePaymentValidate (remainingAmount amount : Int) : FormAction :=
  if amount ≤ 0 then .errorMsg "يرجى إدخال مبلغ صحيح"
  else if amount > remainingAmount then
    .errorMsg "المبلغ المدفوع أكبر من المبلغ المتبقي"
  else .submitPayment amount

/-- Query parameters of `GET /commitments` the route reads. -/
structure ListParams where
  status : Option String
  sortBy : Option String
  order : Option String
deriving Repr, DecidableEq

/-- The route's sort-field allow-list. -/
def allowedSortFields : List String :=
  ["due_date", "created_at", "amount", "description", "status"]

/-- Comparison for `ORDER BY <field>` on commitment rows, per SQLite semantics:
BINARY-collation order on the `TEXT` columns, numeric order on `amount`. -/
def fieldLe (field : String) (a b : Commitment) : Bool :=
  if field = "due_date" then ! strLtB b.due_date a.due_date
  else if field = "created_at" then ! strLtB b.created_at a.created_at
  else if field = "amount" then a.amount ≤ b.amount
  else if field = "description" then ! strLtB b.description a.description
  else if field = "status" then ! strLtB b.status a.status
  else true

/-- Insert into a sorted list w.r.t. a boolean comparison (the sort the
storage engine performs for an `ORDER BY` clause). -/
def orderedInsertB (le : Commitment → Commitment → Bool) (a : Commitment) :
    List Commitment → List Commitment
  | [] => [a]
  | b :: l => if le a b then a :: b :: l else b :: orderedInsertB le a l

/-- Sort w.r.t. a boolean comparison (models the ordering an `ORDER BY`
clause imposes on the result set). -/
def sortRowsB (le : Commitment → Commitment → Bool) : List Commitment → List Commitment
  | [] => []
  | b :: l => orderedInsertB le b (sortRowsB le l)

/-- Route `GET /commitments`: optional `WHERE status = ?` filter; then
`sortBy = req.query.sortBy || 'created_at'` and
`order = req.query.order || 'DESC'` (JS `||`: an absent or empty value
falls to the default); an `ORDER BY ${sortBy} ${order === 'ASC' ? 'ASC' :
'DESC'}` clause is appended only when `sortBy` is in the allow-list —
otherwise the query keeps the stored row order, with no ORDER BY at all. -/
def listCommitments (db : TenantStore) (p : ListParams) : List Commitment :=
  let rows :=
    match p.status with
    | some st => db.commitments.filter (fun c => c.status = st)
    | none => db.commitments
  let sortBy :=
    match p.sortBy with
    | some s => if s = "" then "created_at" else s
    | none => "created_at"
  let order :=
    match p.order with
    | some o => if o = "" then "DESC" else o
    | none => "DESC"
  if allowedSortFields.contains sortBy then
    if order = "ASC" then sortRowsB (fieldLe sortBy) rows
    else sortRowsB (fun a b => fieldLe sortBy b a) rows
  else rows

/-- Outcome of `DELETE /commitments/:id`. -/
inductive DeleteOutcome where
  | conflict
  | deleted
deriving Repr, DecidableEq

/-- Route `DELETE /commitments/:id`: `SELECT COUNT(*) FROM payments WHERE
commitment_id = ?`; a positive count is answered with the 400 conflict
error and nothing changes; otherwise `DELETE FROM commitments WHERE id = ?`
runs unconditionally. -/
def deleteCommitment (db : TenantStore) (id : Nat) : DeleteOutcome × TenantStore :=
  if 0 < (db.payments.filter (fun p => p.commitment_id = id)).length then
    (.conflict, db)
  else
    (.deleted, { db with commitments := db.commitments.filter (fun c => ¬ c.id = id) })

/-- A live `better-sqlite3` handle as `new Database(dbPath)` produces it:
identified by which `new Database` call created it (`token`) and the file
it opened (`dbPath`). -/
structure DbHandle where
  token : Nat
  dbPath : String
deriving Repr, DecidableEq

/-- Process-wide registry state: the `tenantDbs` map (newest binding
first), plus a counter distinguishing successive `new Database` calls. -/
structure Registry where
  tenantDbs : List (Nat × DbHandle)
  nextToken : Nat
deriving Repr, DecidableEq

/-- Registry state at process start: `const tenantDbs = {}`. -/
def emptyRegistry : Registry := { tenantDbs := [], nextToken := 0 }

/-- Model of `path.join(DB_DIR, `tenant_${companyId}.db`)` — the deterministic
store file for a tenant id (relative to the data directory). -/
def tenantDbPath (companyId : Nat) : String :=
  "tenant_" ++ Nat.repr companyId ++ ".db"

/-- Function `initTenantDb`: open `tenant_${companyId}.db`, run the idempotent
`CREATE TABLE IF NOT EXISTS` schema, store the handle in `tenantDbs`, and
return it. -/
def initTenantDb (reg : Registry) (companyId : Nat) : DbHandle × Registry :=
  let h : DbHandle := { token := reg.nextToken, dbPath := tenantDbPath companyId }
  (h, { tenantDbs := (companyId, h) :: reg.tenantDbs, nextToken := reg.nextToken + 1 })

/-- Function `getTenantDb`: return the cached handle when `tenantDbs[companyId]` is
set, otherwise fall back to `initTenantDb`.  Nothing ever removes an entry
from the cache. -/
def getTenantDb (reg : Registry) (companyId : Nat) : DbHandle × Registry :=
  match reg.tenantDbs.lookup companyId with
  | some h => (h, reg)
  | none => initTenantDb reg companyId

/-- The authenticated principal each ledger route reads from `req.user`. -/
structure AuthUser where
  role : String
  company_id : Option Nat
deriving Repr, DecidableEq

/-- The argument of the `getTenantDb(Number(targetCompanyId))` call a route
makes: a real tenant id, or the `NaN` key produced by `Number(undefined)`
when `targetCompanyId` is absent. -/
inductive TenantKey where
  | nan
  | id : Nat → TenantKey
deriving Repr, DecidableEq

/-- The store file `getTenantDb` opens for a key; the `NaN` key yields the
literal `tenant_NaN.db` (`` `tenant_${NaN}.db` ``). -/
def tenantKeyPath : TenantKey → String
  | .nan => "tenant_NaN.db"
  | .id n => tenantDbPath n

/-- How far a ledger route gets on tenant resolution. -/
inductive RouteOutcome where
  /-- HTTP 403 "No company linked to this user". -/
  | forbidden
  /-- HTTP 400 "company_id is required". -/
  | clientError
  /-- Empty-list success `res.json([])` — the admin-with-no-tenant leniency. -/
  | emptyList
  /-- The route proceeds: it calls `getTenantDb` with this key and runs
  its queries against that store. -/
  | opOnStore : TenantKey → RouteOutcome
deriving Repr, DecidableEq

/-- Model of `const targetCompanyId = companyId || <param>` — JS `||` falls through
on `null`/`undefined`/`0`. -/
def targetCompanyId (u : AuthUser) (param : Option Nat) : Option Nat :=
  match u.company_id with
  | some c => if c = 0 then param else some c
  | none => param

/-- The shared guard prologue of every ledger route:
`if (!companyId && req.user.role !== 'admin') return 403`. -/
def guardNoCompany (u : AuthUser) : Bool :=
  (u.company_id = none ∨ u.company_id = some 0) ∧ u.role ≠ "admin"

/-- Key passed to `getTenantDb(Number(targetCompanyId))`:
`Number(undefined)` is `NaN`. -/
def keyOf : Option Nat → TenantKey
  | none => .nan
  | some n => .id n

/-- Tenant resolution of `GET /commitments`: after the guard, a missing
`targetCompanyId` yields `[]` for an admin and 400 otherwise; with a
target the route queries that tenant store. -/
def listCommitmentsRoute (u : AuthUser) (param : Option Nat) : RouteOutcome :=
  if guardNoCompany u then .forbidden
  else
    match targetCompanyId u param with
    | none => if u.role = "admin" then .emptyList else .clientError
    | some t => .opOnStore (.id t)

/-- Tenant resolution of `POST /commitments`: a missing `targetCompanyId`
is always the 400 client error. -/
def createCommitmentRoute (u : AuthUser) (param : Option Nat) : RouteOutcome :=
  if guardNoCompany u then .forbidden
  else
    match targetCompanyId u param with
    | none => .clientError
    | some t => .opOnStore (.id t)

/-- Tenant resolution of `GET /commitments/search/:number`: no
missing-target check — the route goes straight to
`getTenantDb(Number(targetCompanyId))`. -/
def searchCommitmentRoute (u : AuthUser) (param : Option Nat) : RouteOutcome :=
  if guardNoCompany u then .forbidden
  else .opOnStore (keyOf (targetCompanyId u param))

/-- Tenant resolution of `PUT /commitments/:id`: no missing-target check. -/
def updateCommitmentRoute (u : AuthUser) (param : Option Nat) : RouteOutcome :=
  if guardNoCompany u then .forbidden
  else .opOnStore (keyOf (targetCompanyId u param))

/-- Tenant resolution of `DELETE /commitments/:id`: no missing-target
check. -/
def deleteCommitmentRoute (u : AuthUser) (param : Option Nat) : RouteOutcome :=
  if guardNoCompany u then .forbidden
  else .opOnStore (keyOf (targetCompanyId u param))

/-- Tenant resolution of `GET /payments`: no missing-target check. -/
def listPaymentsRoute (u : AuthUser) (param : Option Nat) : RouteOutcome :=
  if guardNoCompany u then .forbidden
  else .opOnStore (keyOf (targetCompanyId u param))

/-- Tenant resolution of `POST /payments`: no missing-target check. -/
def recordPaymentRoute (u : AuthUser) (param : Option Nat) : RouteOutcome :=
  if guardNoCompany u then .forbidden
  else .opOnStore (keyOf (targetCompanyId u param))

/-! ### Order facts about the BINARY-collation comparison -/

theorem charListLtB_irrefl (l : List Char) : charListLtB l l = false := by
  induction l with
  | nil => rfl
  | cons c cs ih => simp [charListLtB, ih]

theorem charListLtB_asymm : ∀ {a b : List Char},
    charListLtB a b = true → charListLtB b a = false
  | _, [], h => by simp [charListLtB] at h
  | [], _ :: _, _ => rfl
  | a :: as, b :: bs, h => by
    by_cases hab : a.toNat < b.toNat
    · have hba : ¬ b.toNat < a.toNat := by omega
      simp [charListLtB, hab, hba]
    · by_cases hba : b.toNat < a.toNat
      · simp [charListLtB, hab, hba] at h
      · have hrec : charListLtB as bs = true := by
          simpa [charListLtB, hab, hba] using h
        simp [charListLtB, hab, hba, charListLtB_asymm hrec]

theorem charListLtB_trans : ∀ {a b c : List Char},
    charListLtB a b = true → charListLtB b c = true → charListLtB a c = true
  | _, _, [], _, h2 => by simp [charListLtB] at h2
  | _, [], _ :: _, h1, _ => by simp [charListLtB] at h1
  | [], _ :: _, _ :: _, _, _ => rfl
  | a :: as, b :: bs, c :: cs, h1, h2 => by
    by_cases hab : a.toNat < b.toNat <;> by_cases hbc : b.toNat < c.toNat
    · have hac : a.toNat < c.toNat := by omega
      simp [charListLtB, hac]
    · by_cases hcb : c.toNat < b.toNat
      · simp [charListLtB, hbc, hcb] at h2
      · have hbceq : b.toNat = c.toNat := by omega
        have hac : a.toNat < c.toNat := by omega
        simp [charListLtB, hac]
    · by_cases hba : b.toNat < a.toNat
      · simp [charListLtB, hab, hba] at h1
      · have habeq : a.toNat = b.toNat := by omega
        have hac : a.toNat < c.toNat := by omega
        simp [charListLtB, hac]
    · by_cases hba : b.toNat < a.toNat
      · simp [charListLtB, hab, hba] at h1
      · by_cases hcb : c.toNat < b.toNat
        · simp [charListLtB, hbc, hcb] at h2
        · have h1' : charListLtB as bs = true := by
            simpa [charListLtB, hab, hba] using h1
          have h2' : charListLtB bs cs = true := by
            simpa [charListLtB, hbc, hcb] using h2
          have hac1 : ¬ a.toNat < c.toNat := by omega
          have hac2 : ¬ c.toNat < a.toNat := by omega
          simp [charListLtB, hac1, hac2, charListLtB_trans h1' h2']

theorem char_toNat_inj {a b : Char} (h : a.toNat = b.toNat) : a = b :=
  Char.ext (UInt32.eq_of_val_eq (Fin.ext h))

theorem charListLtB_total : ∀ {a b : List Char},
    a ≠ b → charListLtB a b = true ∨ charListLtB b a = true
  | [], [], h => absurd rfl h
  | [], _ :: _, _ => Or.inl rfl
  | _ :: _, [], _ => Or.inr rfl
  | a :: as, b :: bs, h => by
    by_cases hab : a.toNat < b.toNat
    · exact Or.inl (by simp [charListLtB, hab])
    · by_cases hba : b.toNat < a.toNat
      · exact Or.inr (by simp [charListLtB, hba])
      · have heq : a = b := char_toNat_inj (by omega)
        have hne : as ≠ bs := fun hh => h (by rw [heq, hh])
        rcases charListLtB_total hne with hl | hl
        · exact Or.inl (by simp [charListLtB, Nat.lt_irrefl, hab, hba, hl])
        · exact Or.inr (by simp [charListLtB, Nat.lt_irrefl, hab, hba, hl])

theorem strLtB_asymm {a b : String} (h : strLtB a b = true) : strLtB b a = false :=
  charListLtB_asymm h

theorem strLtB_irrefl (a : String) : strLtB a a = false := charListLtB_irrefl _

theorem strLtB_trans {a b c : String} (h1 : strLtB a b = true) (h2 : strLtB b c = true) :
    strLtB a c = true := charListLtB_trans h1 h2

/-! ### The `ORDER BY ... DESC LIMIT 1` scan finds the greatest match -/

theorem foldl_maxStep_eq : ∀ (l : List String) (acc : Option String) (b : String),
    (b ∈ l ∨ acc = some b) →
    (∀ x ∈ l, x = b ∨ strLtB x b = true) →
    (∀ a, acc = some a → a = b ∨ strLtB a b = true) →
    l.foldl maxStep acc = some b
  | [], acc, b, hmem, _, ha => by
    rcases hmem with h | h
    · simp at h
    · simpa using h
  | s :: t, acc, b, hmem, hl, ha => by
    have hs : s = b ∨ strLtB s b = true := hl s (by simp)
    have hstep : ∀ a, maxStep acc s = some a → a = b ∨ strLtB a b = true := by
      intro a hstepa
      match acc with
      | none =>
        simp [maxStep] at hstepa
        exact hstepa ▸ hs
      | some m =>
        have hm := ha m rfl
        by_cases hlt : strLtB m s = true
        · simp [maxStep, hlt] at hstepa
          exact hstepa ▸ hs
        · simp [maxStep, hlt] at hstepa
          exact hstepa ▸ hm
    have hmem' : b ∈ t ∨ maxStep acc s = some b := by
      rcases hmem with hbl | hacc
      · rcases List.mem_cons.mp hbl with hbs | hbt
        · right
          match acc with
          | none => simp [maxStep, hbs]
          | some m =>
            rcases ha m rfl with hmb | hmb
            · by_cases hlt : strLtB m s = true
              · simp [maxStep, hlt, hbs]
              · have hms : maxStep (some m) s = some m := by simp [maxStep, hlt]
                rw [hms, hmb]
            · have hlt : strLtB m s = true := hbs ▸ hmb
              simp [maxStep, hlt, hbs]
        · left; exact hbt
      · right
        rw [hacc]
        simp only [maxStep]
        rcases hs with hsb | hsb
        · simp [hsb]
        · have : strLtB b s = false := strLtB_asymm hsb
          simp [this]
    exact foldl_maxStep_eq t (maxStep acc s) b hmem'
      (fun x hx => hl x (List.mem_cons_of_mem _ hx)) hstep

theorem latestCommitNumber_eq (pfx : String) (nums : List String) (b : String)
    (hmem : b ∈ nums) (hpfx : strStartsWith pfx b = true)
    (hmax : ∀ x ∈ nums, strStartsWith pfx x = true → x = b ∨ strLtB x b = true) :
    latestCommitNumber pfx nums = some b := by
  unfold latestCommitNumber
  apply foldl_maxStep_eq
  · left
    exact List.mem_filter.mpr ⟨hmem, hpfx⟩
  · intro x hx
    have := List.mem_filter.mp hx
    exact hmax x this.1 this.2
  · intro a ha
    simp at ha

theorem latestCommitNumber_nil (pfx : String) (nums : List String)
    (h : ∀ x ∈ nums, strStartsWith pfx x = false) :
    latestCommitNumber pfx nums = none := by
  unfold latestCommitNumber
  have : nums.filter (fun s => strStartsWith pfx s) = [] := by
    apply List.filter_eq_nil_iff.mpr
    intro a ha
    simp [h a ha]
  rw [this]
  rfl

/-! ### Decimal rendering is injective (`tenant_<id>.db` paths collide
only for equal ids) -/

theorem digitsVal_foldl_acc (cs : List Char) (a : Nat) :
    cs.foldl (fun a c => a * 10 + (c.toNat - 48)) a =
      a * 10 ^ cs.length + digitsVal cs := by
  induction cs generalizing a with
  | nil => simp [digitsVal]
  | cons c t ih =>
    have h1 := ih (a * 10 + (c.toNat - 48))
    have h2 := ih (0 * 10 + (c.toNat - 48))
    simp only [List.foldl_cons, digitsVal, List.length_cons] at h1 h2 ⊢
    rw [h1, h2]
    ring

theorem digitsVal_cons (c : Char) (cs : List Char) :
    digitsVal (c :: cs) = (c.toNat - 48) * 10 ^ cs.length + digitsVal cs := by
  simp only [digitsVal, List.foldl_cons]
  rw [digitsVal_foldl_acc]
  simp [digitsVal]

theorem digitChar_val : ∀ k, k < 10 → (Nat.digitChar k).toNat - 48 = k := by decide

theorem toDigitsCore_decode : ∀ (f n : Nat) (cs : List Char), n < 10 ^ f →
    digitsVal (Nat.toDigitsCore 10 f n cs) = n * 10 ^ cs.length + digitsVal cs := by
  intro f
  induction f with
  | zero =>
    intro n cs hn
    have : n = 0 := by simpa using hn
    subst this
    simp [Nat.toDigitsCore]
  | succ f ih =>
    intro n cs hn
    have hmod : n % 10 < 10 := Nat.mod_lt _ (by norm_num)
    have hd : (Nat.digitChar (n % 10)).toNat - 48 = n % 10 := digitChar_val _ hmod
    by_cases hz : n / 10 = 0
    · have hn10 : n < 10 := by omega
      have hstep : Nat.toDigitsCore 10 (f + 1) n cs = Nat.digitChar (n % 10) :: cs := by
        simp [Nat.toDigitsCore, hz]
      rw [hstep, digitsVal_cons, hd, Nat.mod_eq_of_lt hn10]
    · have hstep : Nat.toDigitsCore 10 (f + 1) n cs =
          Nat.toDigitsCore 10 f (n / 10) (Nat.digitChar (n % 10) :: cs) := by
        simp [Nat.toDigitsCore, hz]
      rw [hstep]
      have hdiv : n / 10 < 10 ^ f := by
        have h10 : (0 : Nat) < 10 := by norm_num
        rw [Nat.div_lt_iff_lt_mul h10]
        calc n < 10 ^ (f + 1) := hn
          _ = 10 ^ f * 10 := by ring
      rw [ih (n / 10) (Nat.digitChar (n % 10) :: cs) hdiv, digitsVal_cons, hd,
        List.length_cons]
      conv_rhs => rw [← Nat.div_add_mod n 10]
      ring

theorem digitsVal_toDigits (n : Nat) : digitsVal (Nat.toDigits 10 n) = n := by
  unfold Nat.toDigits
  have hlt : n < 10 ^ (n + 1) := by
    calc n < 10 ^ n := Nat.lt_pow_self (by norm_num) n
      _ ≤ 10 ^ (n + 1) := Nat.pow_le_pow_right (by norm_num) (Nat.le_succ n)
  rw [toDigitsCore_decode (n + 1) n [] hlt]
  simp [digitsVal]

theorem natRepr_inj {a b : Nat} (h : Nat.repr a = Nat.repr b) : a = b := by
  have hdata : Nat.toDigits 10 a = Nat.toDigits 10 b := by
    have := congrArg String.data h
    simpa [Nat.repr, List.asString] using this
  calc a = digitsVal (Nat.toDigits 10 a) := (digitsVal_toDigits a).symm
    _ = digitsVal (Nat.toDigits 10 b) := by rw [hdata]
    _ = b := digitsVal_toDigits b

theorem tenantDbPath_inj {i j : Nat} (h : tenantDbPath i = tenantDbPath j) : i = j := by
  apply natRepr_inj
  have hdata := congrArg String.data h
  simp only [tenantDbPath, String.data_append, List.append_assoc] at hdata
  have h1 := List.append_cancel_left hdata
  have h2 := List.append_cancel_right h1
  exact String.ext h2
/-! ### The ORDER BY sort produces an ordered permutation -/

theorem orderedInsertB_perm (le : Commitment → Commitment → Bool) (a : Commitment) :
    ∀ l : List Commitment, (orderedInsertB le a l).Perm (a :: l)
  | [] => List.Perm.refl _
  | b :: l => by
    by_cases h : le a b = true
    · simp [orderedInsertB, h]
    · simp only [orderedInsertB, h, if_false, Bool.false_eq_true]
      exact ((orderedInsertB_perm le a l).cons b).trans (List.Perm.swap a b l)

theorem sortRowsB_perm (le : Commitment → Commitment → Bool) :
    ∀ l : List Commitment, (sortRowsB le l).Perm l
  | [] => List.Perm.refl _
  | b :: l =>
    (orderedInsertB_perm le b (sortRowsB le l)).trans ((sortRowsB_perm le l).cons b)

theorem orderedInsertB_pairwise (le : Commitment → Commitment → Bool)
    (htot : ∀ a b, le a b = true ∨ le b a = true)
    (htrans : ∀ a b c, le a b = true → le b c = true → le a c = true)
    (a : Commitment) :
    ∀ l : List Commitment, l.Pairwise (fun x y => le x y = true) →
      (orderedInsertB le a l).Pairwise (fun x y => le x y = true)
  | [], _ => List.pairwise_singleton _ _
  | b :: l, hp => by
    rcases List.pairwise_cons.mp hp with ⟨hb, hl⟩
    by_cases h : le a b = true
    · simp only [orderedInsertB, h, if_true]
      refine List.pairwise_cons.mpr ⟨?_, hp⟩
      intro x hx
      rcases List.mem_cons.mp hx with hxb | hxl
      · exact hxb ▸ h
      · exact htrans a b x h (hb x hxl)
    · simp only [orderedInsertB, h, if_false, Bool.false_eq_true]
      refine List.pairwise_cons.mpr ⟨?_, orderedInsertB_pairwise le htot htrans a l hl⟩
      intro x hx
      have hx' : x ∈ a :: l := (orderedInsertB_perm le a l).mem_iff.mp hx
      rcases List.mem_cons.mp hx' with hxa | hxl
      · rcases htot a b with hab | hba
        · exact absurd hab h
        · rw [hxa]
          exact hba
      · exact hb x hxl

theorem sortRowsB_pairwise (le : Commitment → Commitment → Bool)
    (htot : ∀ a b, le a b = true ∨ le b a = true)
    (htrans : ∀ a b c, le a b = true → le b c = true → le a c = true) :
    ∀ l : List Commitment, (sortRowsB le l).Pairwise (fun x y => le x y = true)
  | [] => List.Pairwise.nil
  | b :: l =>
    orderedInsertB_pairwise le htot htrans b (sortRowsB le l)
      (sortRowsB_pairwise le htot htrans l)

theorem fieldLe_due (a b : Commitment) :
    fieldLe "due_date" a b = ! strLtB b.due_date a.due_date := rfl

theorem fieldLe_created (a b : Commitment) :
    fieldLe "created_at" a b = ! strLtB b.created_at a.created_at := rfl

theorem fieldLe_amount (a b : Commitment) :
    fieldLe "amount" a b = decide (a.amount ≤ b.amount) := rfl

theorem fieldLe_desc (a b : Commitment) :
    fieldLe "description" a b = ! strLtB b.description a.description := rfl

theorem fieldLe_status (a b : Commitment) :
    fieldLe "status" a b = ! strLtB b.status a.status := rfl

theorem fieldLe_other (field : String) (a b : Commitment)
    (h1 : field ≠ "due_date") (h2 : field ≠ "created_at") (h3 : field ≠ "amount")
    (h4 : field ≠ "description") (h5 : field ≠ "status") :
    fieldLe field a b = true := by
  unfold fieldLe
  rw [if_neg h1, if_neg h2, if_neg h3, if_neg h4, if_neg h5]

/-- Two strings cannot each be strictly below the other, so the reflexive
closure of the BINARY collation is total. -/
theorem strLtB_not_total (x y : String) :
    (! strLtB y x) = true ∨ (! strLtB x y) = true := by
  by_cases h : strLtB y x = true
  · right
    simp [strLtB_asymm h]
  · left
    simp only [Bool.not_eq_true']
    cases hc : strLtB y x with
    | false => rfl
    | true => exact absurd hc h

/-- The reflexive closure of the BINARY collation is transitive. -/
theorem strLtB_not_trans {x y z : String} (hxy : strLtB y x = false)
    (hyz : strLtB z y = false) : strLtB z x = false := by
  by_contra hzx
  have hzx' : strLtB z x = true := by
    cases h : strLtB z x with
    | false => exact absurd h hzx
    | true => rfl
  rcases eq_or_ne x y with hxyeq | hxyne
  · rw [hxyeq] at hzx'
    simp [hzx'] at hyz
  · rcases charListLtB_total (fun hdata => hxyne (String.ext hdata)) with hlt | hlt
    · have h6 : strLtB z y = true := strLtB_trans hzx' hlt
      simp [h6] at hyz
    · have h6 : strLtB y x = true := hlt
      simp [h6] at hxy

/-- Totality of each allow-listed ORDER BY comparison. -/
theorem fieldLe_total (field : String) (a b : Commitment) :
    fieldLe field a b = true ∨ fieldLe field b a = true := by
  by_cases h1 : field = "due_date"
  · subst h1
    rw [fieldLe_due, fieldLe_due]
    exact strLtB_not_total a.due_date b.due_date
  by_cases h2 : field = "created_at"
  · subst h2
    rw [fieldLe_created, fieldLe_created]
    exact strLtB_not_total a.created_at b.created_at
  by_cases h3 : field = "amount"
  · subst h3
    rw [fieldLe_amount, fieldLe_amount]
    rcases le_total a.amount b.amount with h | h
    · left; simpa using h
    · right; simpa using h
  by_cases h4 : field = "description"
  · subst h4
    rw [fieldLe_desc, fieldLe_desc]
    exact strLtB_not_total a.description b.description
  by_cases h5 : field = "status"
  · subst h5
    rw [fieldLe_status, fieldLe_status]
    exact strLtB_not_total a.status b.status
  exact Or.inl (fieldLe_other field a b h1 h2 h3 h4 h5)

/-- Transitivity of each allow-listed ORDER BY comparison. -/
theorem fieldLe_trans (field : String) (a b c : Commitment)
    (hab : fieldLe field a b = true) (hbc : fieldLe field b c = true) :
    fieldLe field a c = true := by
  by_cases h1 : field = "due_date"
  · subst h1
    rw [fieldLe_due, Bool.not_eq_true'] at hab hbc ⊢
    exact strLtB_not_trans hab hbc
  by_cases h2 : field = "created_at"
  · subst h2
    rw [fieldLe_created, Bool.not_eq_true'] at hab hbc ⊢
    exact strLtB_not_trans hab hbc
  by_cases h3 : field = "amount"
  · subst h3
    rw [fieldLe_amount, decide_eq_true_eq] at hab hbc ⊢
    exact Int.le_trans hab hbc
  by_cases h4 : field = "description"
  · subst h4
    rw [fieldLe_desc, Bool.not_eq_true'] at hab hbc ⊢
    exact strLtB_not_trans hab hbc
  by_cases h5 : field = "status"
  · subst h5
    rw [fieldLe_status, Bool.not_eq_true'] at hab hbc ⊢
    exact strLtB_not_trans hab hbc
  exact fieldLe_other field a c h1 h2 h3 h4 h5

/-! ### Claims -/

/-- C1: every commitment created via `POST /commitments` gets a
`commit_number` of the form `{year}-{month zero-padded to 2}-{sequence
zero-padded to 3}` derived from `due_date`; the sequence is 1 when no
stored commit number matches the year-month prefix (or the matched
number's numeric suffix fails to parse — covered by `commitSeqSuffix`
returning `none`), and otherwise it is the numeric suffix of the
lexicographically greatest matching commit number plus 1; the first
commitment with due date 2025-03-15 gets "2025-03-001" and a second one
the same month gets "2025-03-002". -/
theorem c1_commit_number_generation :
    (∀ (due : String) (y m : Nat),
        parseDueDate due = some (y, m) →
        monthPfx due = Nat.repr y ++ "-" ++ padStartZero 2 (Nat.repr m) ++ "-") ∧
    (∀ (db : TenantStore) (due : String) (y m : Nat),
        parseDueDate due = some (y, m) →
        (∀ c ∈ db.commitments, strStartsWith (monthPfx due) c.commit_number = false) →
        generateCommitNumber db due = monthPfx due ++ "001") ∧
    (∀ (db : TenantStore) (due : String) (y m : Nat) (best : String),
        parseDueDate due = some (y, m) →
        best ∈ db.commitments.map Commitment.commit_number →
        strStartsWith (monthPfx due) best = true →
        (∀ x ∈ db.commitments.map Commitment.commit_number,
            strStartsWith (monthPfx due) x = true → x = best ∨ strLtB x best = true) →
        generateCommitNumber db due =
          monthPfx due ++ padStartZero 3 (Nat.repr
            (match commitSeqSuffix best with
             | none => 1
             | some k => k + 1))) ∧
    ((createCommitment emptyStore ⟨"2025-03-15", "acct", "", 100, none⟩ "t1").2.commitments.map
        Commitment.commit_number = ["2025-03-001"]) ∧
    ((createCommitment
        (createCommitment emptyStore ⟨"2025-03-15", "acct", "", 100, none⟩ "t1").2
        ⟨"2025-03-15", "acct2", "", 200, none⟩ "t2").2.commitments.map
        Commitment.commit_number = ["2025-03-001", "2025-03-002"]) := by
  refine ⟨?_, ?_, ?_, ?_, ?_⟩
  · intro due y m hparse
    simp [monthPfx, hparse]
  · intro db due y m hparse hnone
    have hlat : latestCommitNumber (monthPfx due)
        (db.commitments.map Commitment.commit_number) = none := by
      apply latestCommitNumber_nil
      intro x hx
      rcases List.mem_map.mp hx with ⟨c, hc, hceq⟩
      exact hceq ▸ hnone c hc
    simp only [generateCommitNumber, hlat]
    have hpad : padStartZero 3 (Nat.repr 1) = "001" := by decide
    rw [hpad]
  · intro db due y m best hparse hmem hpfx hmax
    have hlat : latestCommitNumber (monthPfx due)
        (db.commitments.map Commitment.commit_number) = some best :=
      latestCommitNumber_eq _ _ _ hmem hpfx hmax
    simp only [generateCommitNumber, hlat]
  · decide
  · decide

/-- C1 witness: the sequence rule applied at a concrete store holding
"2025-03-001" yields "2025-03-002". -/
theorem c1_commit_number_generation_witness :
    generateCommitNumber
      ⟨[⟨1, "2025-03-001", "2025-03-15", "acct", "", 100, statusActive, "t1"⟩], [], 2, 1⟩
      "2025-03-15" = "2025-03-002" := by
  have h := c1_commit_number_generation.2.2.1
      ⟨[⟨1, "2025-03-001", "2025-03-15", "acct", "", 100, statusActive, "t1"⟩], [], 2, 1⟩
      "2025-03-15" 2025 3 "2025-03-001" (by decide) (by decide) (by decide) (by decide)
  rw [h]
  decide

/-- C2: after `POST /payments` inserts a payment for an existing
commitment, the status is set to completed exactly when the sum of all
payments for that commitment (including the new one) is `>=` the
commitment amount: the call succeeds, the payment row is appended, the
sum grows by exactly the paid amount, a sum `>=` the amount marks the
commitment completed (over-payment included), and a sum strictly below
leaves every commitment row — in particular its status — unchanged. -/
theorem c2_payment_status_transition
    (db : TenantStore) (cid : Nat) (amt : Int) (method pdate : String) (c : Commitment)
    (hfind : db.commitments.find? (fun r => r.id = cid) = some c) :
    ∀ res db', recordPayment db cid amt method pdate = (res, db') →
      res = Except.ok () ∧
      db'.payments = db.payments ++
        [({ id := db.nextPaymentId, commitment_id := cid, method := method,
            amount := amt, payment_date := pdate } : Payment)] ∧
      ((db'.payments.filter (fun q => q.commitment_id = cid)).map Payment.amount).sum =
        ((db.payments.filter (fun q => q.commitment_id = cid)).map Payment.amount).sum
          + amt ∧
      (((db'.payments.filter (fun q => q.commitment_id = cid)).map Payment.amount).sum
          ≥ c.amount →
        ∀ r ∈ db'.commitments, r.id = cid → r.status = statusCompleted) ∧
      (((db'.payments.filter (fun q => q.commitment_id = cid)).map Payment.amount).sum
          < c.amount →
        db'.commitments = db.commitments) := by
  intro res db' h
  have hpay : ∀ l : List Payment,
      (((l ++ [({ id := db.nextPaymentId, commitment_id := cid, method := method,
                  amount := amt, payment_date := pdate } : Payment)]).filter
            (fun q => q.commitment_id = cid)).map Payment.amount).sum =
        ((l.filter (fun q => q.commitment_id = cid)).map Payment.amount).sum + amt := by
    intro l
    rw [List.filter_append, List.map_append, List.sum_append]
    simp
  by_cases hge :
      (((db.payments ++ [({ id := db.nextPaymentId, commitment_id := cid, method := method, amount := amt, payment_date := pdate } : Payment)]).filter
            (fun q => q.commitment_id = cid)).map Payment.amount).sum ≥ c.amount
  · have hbody : recordPayment db cid amt method pdate =
        (Except.ok (), { db with
          payments := db.payments ++ [({ id := db.nextPaymentId, commitment_id := cid,
                                          method := method, amount := amt, payment_date := pdate } : Payment)],
          nextPaymentId := db.nextPaymentId + 1,
          commitments := db.commitments.map (fun r =>
            if r.id = cid then { r with status := statusCompleted } else r) }) := by
      unfold recordPayment recordPaymentBody
      simp only [hfind, if_pos hge]
    rw [hbody] at h
    injection h with hres hdb
    subst hres
    subst hdb
    refine ⟨rfl, rfl, hpay db.payments, ?_, ?_⟩
    · intro _ r hr hrid
      rcases List.mem_map.mp hr with ⟨r0, hr0, hr0eq⟩
      by_cases h0 : r0.id = cid
      · rw [← hr0eq]
        simp [h0]
      · rw [← hr0eq] at hrid
        simp [h0] at hrid
    · intro hlt
      exact absurd hge (not_le.mpr hlt)
  · have hbody : recordPayment db cid amt method pdate =
        (Except.ok (), { db with
          payments := db.payments ++ [({ id := db.nextPaymentId, commitment_id := cid,
                                          method := method, amount := amt, payment_date := pdate } : Payment)],
          nextPaymentId := db.nextPaymentId + 1 }) := by
      unfold recordPayment recordPaymentBody
      simp only [hfind, if_neg hge]
    rw [hbody] at h
    injection h with hres hdb
    subst hres
    subst hdb
    refine ⟨rfl, rfl, hpay db.payments, ?_, fun _ => rfl⟩
    intro hge' r hr hrid
    exact absurd hge' hge

/-- C2 witness: a concrete partial payment is accepted. -/
theorem c2_payment_status_transition_witness :
    (recordPayment ⟨[⟨1, "2025-03-001", "2025-03-15", "A", "", 100, statusActive, "t"⟩],
      [], 2, 1⟩ 1 40 "cash" "d").1 = Except.ok () :=
  (c2_payment_status_transition
    ⟨[⟨1, "2025-03-001", "2025-03-15", "A", "", 100, statusActive, "t"⟩], [], 2, 1⟩
    1 40 "cash" "d" ⟨1, "2025-03-001", "2025-03-15", "A", "", 100, statusActive, "t"⟩
    (by decide)
    (recordPayment ⟨[⟨1, "2025-03-001", "2025-03-15", "A", "", 100, statusActive, "t"⟩],
      [], 2, 1⟩ 1 40 "cash" "d").1
    (recordPayment ⟨[⟨1, "2025-03-001", "2025-03-15", "A", "", 100, statusActive, "t"⟩],
      [], 2, 1⟩ 1 40 "cash" "d").2
    rfl).1

theorem recordPayment_eq_none (db : TenantStore) (cid : Nat) (amt : Int)
    (method pdate : String)
    (hfind : db.commitments.find? (fun r => r.id = cid) = none) :
    recordPayment db cid amt method pdate = (.error .commitmentNotFound, db) := by
  unfold recordPayment recordPaymentBody
  simp only [hfind]

theorem recordPayment_eq_some_ge (db : TenantStore) (cid : Nat) (amt : Int)
    (method pdate : String) (c : Commitment)
    (hfind : db.commitments.find? (fun r => r.id = cid) = some c)
    (hge : (((db.payments ++ [({ id := db.nextPaymentId, commitment_id := cid, method := method, amount := amt, payment_date := pdate } : Payment)]).filter
            (fun q => q.commitment_id = cid)).map Payment.amount).sum ≥ c.amount) :
    recordPayment db cid amt method pdate =
      (Except.ok (), { db with
        payments := db.payments ++ [({ id := db.nextPaymentId, commitment_id := cid, method := method, amount := amt, payment_date := pdate } : Payment)],
        nextPaymentId := db.nextPaymentId + 1,
        commitments := db.commitments.map (fun r =>
          if r.id = cid then { r with status := statusCompleted } else r) }) := by
  unfold recordPayment recordPaymentBody
  simp only [hfind, if_pos hge]

theorem recordPayment_eq_some_lt (db : TenantStore) (cid : Nat) (amt : Int)
    (method pdate : String) (c : Commitment)
    (hfind : db.commitments.find? (fun r => r.id = cid) = some c)
    (hge : ¬ (((db.payments ++ [({ id := db.nextPaymentId, commitment_id := cid, method := method, amount := amt, payment_date := pdate } : Payment)]).filter
            (fun q => q.commitment_id = cid)).map Payment.amount).sum ≥ c.amount) :
    recordPayment db cid amt method pdate =
      (Except.ok (), { db with
        payments := db.payments ++ [({ id := db.nextPaymentId, commitment_id := cid, method := method, amount := amt, payment_date := pdate } : Payment)],
        nextPaymentId := db.nextPaymentId + 1 }) := by
  unfold recordPayment recordPaymentBody
  simp only [hfind, if_neg hge]

/-- C3: `POST /payments` is atomic — when any step between
`BEGIN TRANSACTION` and `COMMIT` fails the error answer carries the tenant
store exactly as it was before the call (the `ROLLBACK` branch), the
failing path is reachable (an unknown commitment id makes the commitment
read throw), and a success commits the payment insert together with the
evaluated conditional status update: the payment row is present and the
commitments table is either marked completed (sum `>=` amount) or left
unchanged (sum below amount), with no other outcome. -/
theorem c3_record_payment_atomicity :
    ∀ (db : TenantStore) (cid : Nat) (amt : Int) (method pdate : String),
      (∀ e db', recordPayment db cid amt method pdate = (.error e, db') → db' = db) ∧
      (db.commitments.find? (fun r => r.id = cid) = none →
        recordPayment db cid amt method pdate = (.error .commitmentNotFound, db)) ∧
      (∀ db', recordPayment db cid amt method pdate = (.ok (), db') →
        db'.payments = db.payments ++ [({ id := db.nextPaymentId, commitment_id := cid, method := method, amount := amt, payment_date := pdate } : Payment)] ∧
        ∃ c, db.commitments.find? (fun r => r.id = cid) = some c ∧
          ((((db'.payments.filter (fun q => q.commitment_id = cid)).map
                Payment.amount).sum ≥ c.amount ∧
            db'.commitments = db.commitments.map (fun r =>
              if r.id = cid then { r with status := statusCompleted } else r)) ∨
           (((db'.payments.filter (fun q => q.commitment_id = cid)).map
                Payment.amount).sum < c.amount ∧
            db'.commitments = db.commitments))) := by
  intro db cid amt method pdate
  refine ⟨?_, ?_, ?_⟩
  · intro e db' h
    cases hfind : db.commitments.find? (fun r => r.id = cid) with
    | none =>
      rw [recordPayment_eq_none db cid amt method pdate hfind] at h
      injection h with h1 h2
      exact h2.symm
    | some c =>
      by_cases hge : (((db.payments ++ [({ id := db.nextPaymentId, commitment_id := cid, method := method, amount := amt, payment_date := pdate } : Payment)]).filter
            (fun q => q.commitment_id = cid)).map Payment.amount).sum ≥ c.amount
      · rw [recordPayment_eq_some_ge db cid amt method pdate c hfind hge] at h
        injection h with h1 h2
        exact absurd h1 (by simp)
      · rw [recordPayment_eq_some_lt db cid amt method pdate c hfind hge] at h
        injection h with h1 h2
        exact absurd h1 (by simp)
  · intro hfind
    exact recordPayment_eq_none db cid amt method pdate hfind
  · intro db' h
    cases hfind : db.commitments.find? (fun r => r.id = cid) with
    | none =>
      rw [recordPayment_eq_none db cid amt method pdate hfind] at h
      injection h with h1 h2
      exact absurd h1 (by simp)
    | some c =>
      by_cases hge : (((db.payments ++ [({ id := db.nextPaymentId, commitment_id := cid, method := method, amount := amt, payment_date := pdate } : Payment)]).filter
            (fun q => q.commitment_id = cid)).map Payment.amount).sum ≥ c.amount
      · rw [recordPayment_eq_some_ge db cid amt method pdate c hfind hge] at h
        injection h with h1 h2
        rw [← h2]
        exact ⟨rfl, c, rfl, Or.inl ⟨hge, rfl⟩⟩
      · rw [recordPayment_eq_some_lt db cid amt method pdate c hfind hge] at h
        injection h with h1 h2
        rw [← h2]
        exact ⟨rfl, c, rfl, Or.inr ⟨lt_of_not_ge hge, rfl⟩⟩

/-- C3 witness: paying against a non-existent commitment rolls back to the
untouched empty store. -/
theorem c3_record_payment_atomicity_witness :
    recordPayment emptyStore 5 10 "m" "d" = (.error .commitmentNotFound, emptyStore) :=
  (c3_record_payment_atomicity emptyStore 5 10 "m" "d").2.1 (by decide)

/-- C4 counterexample: `POST /payments` does not reject an over-payment.
On a store holding one active commitment of amount 100 with no payments
(`remainingAmount` 100), recording a payment of 150 succeeds, inserts the
payment row (count 0 becomes 1), and marks the commitment completed —
the claimed validation rejection and unchanged row counts are false. -/
theorem c4_overpayment_rejection_counterexample :
    (recordPayment ⟨[⟨1, "2025-03-001", "2025-03-15", "A", "", 100, statusActive, "t"⟩],
      [], 2, 1⟩ 1 150 "cash" "2025-03-20").1 = Except.ok () ∧
    (recordPayment ⟨[⟨1, "2025-03-001", "2025-03-15", "A", "", 100, statusActive, "t"⟩],
      [], 2, 1⟩ 1 150 "cash" "2025-03-20").2.payments.length = 1 ∧
    (recordPayment ⟨[⟨1, "2025-03-001", "2025-03-15", "A", "", 100, statusActive, "t"⟩],
      [], 2, 1⟩ 1 150 "cash" "2025-03-20").2.commitments.map Commitment.status =
      [statusCompleted] :=
  ⟨by rfl, by decide, by decide⟩

/-- C4 amended: the over-payment guard lives in the client payment form,
not in `POST /payments`: for any amount strictly above `remainingAmount`
the form's `handlePayment` validation shows an error and never submits the
request, so no state mutation occurs; the server-side `recordPayment`
itself accepts any amount for an existing commitment. -/
theorem c4_overpayment_client_side_guard :
    (∀ remaining amount : Int, amount > remaining →
      ∃ msg, handlePaymentValidate remaining amount = FormAction.errorMsg msg) ∧
    (∀ (db : TenantStore) (cid : Nat) (amt : Int) (method pdate : String) (c : Commitment),
      db.commitments.find? (fun r => r.id = cid) = some c →
      (recordPayment db cid amt method pdate).1 = Except.ok ()) := by
  constructor
  · intro remaining amount hgt
    by_cases hle : amount ≤ 0
    · refine ⟨"يرجى إدخال مبلغ صحيح", ?_⟩
      unfold handlePaymentValidate
      rw [if_pos hle]
    · refine ⟨"المبلغ المدفوع أكبر من المبلغ المتبقي", ?_⟩
      unfold handlePaymentValidate
      rw [if_neg hle, if_pos hgt]
  · intro db cid amt method pdate c hfind
    by_cases hge : (((db.payments ++ [({ id := db.nextPaymentId, commitment_id := cid, method := method, amount := amt, payment_date := pdate } : Payment)]).filter
            (fun q => q.commitment_id = cid)).map Payment.amount).sum ≥ c.amount
    · rw [recordPayment_eq_some_ge db cid amt method pdate c hfind hge]
    · rw [recordPayment_eq_some_lt db cid amt method pdate c hfind hge]

/-- C4 witness: the form blocks a concrete over-payment while the server
accepts the same over-payment. -/
theorem c4_overpayment_client_side_guard_witness :
    (∃ msg, handlePaymentValidate 100 150 = FormAction.errorMsg msg) ∧
    (recordPayment ⟨[⟨1, "2025-03-001", "2025-03-15", "A", "", 100, statusActive, "t"⟩],
      [], 2, 1⟩ 1 150 "cash" "2025-03-20").1 = Except.ok () :=
  ⟨c4_overpayment_client_side_guard.1 100 150 (by decide),
   c4_overpayment_client_side_guard.2
     ⟨[⟨1, "2025-03-001", "2025-03-15", "A", "", 100, statusActive, "t"⟩], [], 2, 1⟩
     1 150 "cash" "2025-03-20"
     ⟨1, "2025-03-001", "2025-03-15", "A", "", 100, statusActive, "t"⟩ (by decide)⟩

/-- C5 counterexample: an unrecognized `sortBy` does not fall back to the
`created_at DESC` default — it appends no ORDER BY clause at all.  On a
store whose two rows are stored in `created_at`-ascending order,
`sortBy=id` returns them in stored order while the true default listing
returns them `created_at`-descending, so the two results differ. -/
theorem c5_sort_fallback_counterexample :
    listCommitments
      ⟨[⟨1, "2025-01-001", "2025-01-10", "A", "", 10, statusActive, "2025-01-01"⟩,
        ⟨2, "2025-01-002", "2025-01-05", "B", "", 20, statusActive, "2025-01-02"⟩],
       [], 3, 1⟩ ⟨none, some "id", none⟩ ≠
    listCommitments
      ⟨[⟨1, "2025-01-001", "2025-01-10", "A", "", 10, statusActive, "2025-01-01"⟩,
        ⟨2, "2025-01-002", "2025-01-05", "B", "", 20, statusActive, "2025-01-02"⟩],
       [], 3, 1⟩ ⟨none, none, none⟩ := by decide

theorem listCommitments_eval (db : TenantStore) (st o : Option String) (s : String)
    (hs : s ≠ "") :
    listCommitments db ⟨st, some s, o⟩ =
      (if allowedSortFields.contains s = true then
        if (match o with
            | some w => if w = "" then "DESC" else w
            | none => "DESC") = "ASC" then
          sortRowsB (fieldLe s)
            (match st with
             | some v => db.commitments.filter (fun c => c.status = v)
             | none => db.commitments)
        else
          sortRowsB (fun a b => fieldLe s b a)
            (match st with
             | some v => db.commitments.filter (fun c => c.status = v)
             | none => db.commitments)
      else
        (match st with
         | some v => db.commitments.filter (fun c => c.status = v)
         | none => db.commitments)) := by
  simp only [listCommitments]
  rw [if_neg hs]

/-- C5 amended: an allow-listed `sortBy` orders the listing by that field
(ascending exactly when `order=ASC`, descending otherwise; in particular
`sortBy=due_date&order=ASC` yields rows non-decreasing by due date), and
the result is a permutation of the status-filtered rows.  An unrecognized
`sortBy`, however, is silently ignored with NO ordering applied at all —
the rows come back in stored order, not re-sorted by the `created_at DESC`
default, which applies only when `sortBy` is absent or empty. -/
theorem c5_sort_allowlist_amended :
    (∀ (db : TenantStore) (st : Option String),
        List.Pairwise (fun a b => strLtB b.due_date a.due_date = false)
          (listCommitments db ⟨st, some "due_date", some "ASC"⟩)) ∧
    (∀ (db : TenantStore) (st o : Option String) (s : String),
        s ∈ allowedSortFields → s ≠ "" → o = some "ASC" →
        List.Pairwise (fun a b => fieldLe s a b = true)
          (listCommitments db ⟨st, some s, o⟩)) ∧
    (∀ (db : TenantStore) (st o : Option String) (s : String),
        s ∈ allowedSortFields → s ≠ "" → o ≠ some "ASC" →
        List.Pairwise (fun a b => fieldLe s b a = true)
          (listCommitments db ⟨st, some s, o⟩)) ∧
    (∀ (db : TenantStore) (st o : Option String) (s : String),
        s ∈ allowedSortFields → s ≠ "" →
        (listCommitments db ⟨st, some s, o⟩).Perm
          (match st with
           | some v => db.commitments.filter (fun c => c.status = v)
           | none => db.commitments)) ∧
    (∀ (db : TenantStore) (st o : Option String) (s : String),
        s ∉ allowedSortFields → s ≠ "" →
        listCommitments db ⟨st, some s, o⟩ =
          (match st with
           | some v => db.commitments.filter (fun c => c.status = v)
           | none => db.commitments)) := by
  have hcontains : ∀ s : String, s ∈ allowedSortFields →
      allowedSortFields.contains s = true := fun s hmem => List.elem_iff.mpr hmem
  have hordPos : (match (some "ASC" : Option String) with
      | some w => if w = "" then "DESC" else w
      | none => "DESC") = "ASC" := by decide
  have hordNeg : ∀ o : Option String, o ≠ some "ASC" →
      (match o with
       | some w => if w = "" then "DESC" else w
       | none => "DESC") ≠ "ASC" := by
    intro o
    cases o with
    | none => intro _; decide
    | some w =>
      intro ho
      by_cases hw : w = ""
      · simp [hw]
      · show (if w = "" then "DESC" else w) ≠ "ASC"
        rw [if_neg hw]
        intro hcontra
        exact ho (by rw [hcontra])
  refine ⟨?_, ?_, ?_, ?_, ?_⟩
  · intro db st
    rw [listCommitments_eval db st (some "ASC") "due_date" (by decide)]
    rw [if_pos (hcontains "due_date" (by decide)), if_pos hordPos]
    have hp := sortRowsB_pairwise (fieldLe "due_date")
      (fieldLe_total "due_date") (fieldLe_trans "due_date")
      (match st with
       | some v => db.commitments.filter (fun c => c.status = v)
       | none => db.commitments)
    refine hp.imp ?_
    intro a b hab
    rw [fieldLe_due, Bool.not_eq_true'] at hab
    exact hab
  · intro db st o s hmem hs ho
    subst ho
    rw [listCommitments_eval db st (some "ASC") s hs]
    rw [if_pos (hcontains s hmem), if_pos hordPos]
    exact sortRowsB_pairwise (fieldLe s) (fieldLe_total s) (fieldLe_trans s) _
  · intro db st o s hmem hs ho
    rw [listCommitments_eval db st o s hs]
    rw [if_pos (hcontains s hmem), if_neg (hordNeg o ho)]
    exact sortRowsB_pairwise (fun a b => fieldLe s b a)
      (fun a b => fieldLe_total s b a)
      (fun a b c hab hbc => fieldLe_trans s c b a hbc hab) _
  · intro db st o s hmem hs
    rw [listCommitments_eval db st o s hs]
    rw [if_pos (hcontains s hmem)]
    by_cases hord : (match o with
        | some w => if w = "" then "DESC" else w
        | none => "DESC") = "ASC"
    · rw [if_pos hord]
      exact sortRowsB_perm _ _
    · rw [if_neg hord]
      exact sortRowsB_perm _ _
  · intro db st o s hmem hs
    have hcne : ¬ (allowedSortFields.contains s = true) :=
      fun hcc => hmem (List.elem_iff.mp hcc)
    rw [listCommitments_eval db st o s hs]
    rw [if_neg hcne]

/-- C5 witness: `sortBy=id` concretely returns the stored order, and
`sortBy=due_date&order=ASC` sorts a concrete store by due date. -/
theorem c5_sort_allowlist_amended_witness :
    listCommitments
      ⟨[⟨1, "2025-01-001", "2025-01-10", "A", "", 10, statusActive, "2025-01-01"⟩,
        ⟨2, "2025-01-002", "2025-01-05", "B", "", 20, statusActive, "2025-01-02"⟩],
       [], 3, 1⟩ ⟨none, some "id", none⟩ =
      [⟨1, "2025-01-001", "2025-01-10", "A", "", 10, statusActive, "2025-01-01"⟩,
       ⟨2, "2025-01-002", "2025-01-05", "B", "", 20, statusActive, "2025-01-02"⟩] := by
  have h := c5_sort_allowlist_amended.2.2.2.2
    ⟨[⟨1, "2025-01-001", "2025-01-10", "A", "", 10, statusActive, "2025-01-01"⟩,
      ⟨2, "2025-01-002", "2025-01-05", "B", "", 20, statusActive, "2025-01-02"⟩],
     [], 3, 1⟩ none none "id" (by decide) (by decide)
  exact h

/-- C6 (evaluating the failing input): `POST /commitments` with an
unparseable `due_date` does NOT fail before number generation — JS
`new Date('not-a-date')` yields an Invalid Date whose NaN year/month flow
into the template string, so the route generates `commit_number`
"NaN-NaN-001" and inserts the row (id 1 is returned), instead of failing
fast with no insert as the claim requires. -/
theorem c6_bad_due_date_still_inserts :
    parseDueDate "not-a-date" = none ∧
    (createCommitment emptyStore ⟨"not-a-date", "acct", "", 100, none⟩ "t").1 = some 1 ∧
    (createCommitment emptyStore ⟨"not-a-date", "acct", "", 100, none⟩ "t").2.commitments.map
      Commitment.commit_number = ["NaN-NaN-001"] :=
  ⟨by decide, by decide, by decide⟩

/-- C7: `DELETE /commitments/:id` is blocked with a conflict error and no
state change when at least one payment references the commitment, and
otherwise deletes the commitment row unconditionally, leaving the
payments table untouched. -/
theorem c7_delete_commitment_guard :
    ∀ (db : TenantStore) (id : Nat),
      ((∃ p ∈ db.payments, p.commitment_id = id) →
        deleteCommitment db id = (.conflict, db)) ∧
      ((∀ p ∈ db.payments, p.commitment_id ≠ id) →
        deleteCommitment db id =
          (.deleted,
            { db with commitments := db.commitments.filter (fun c => ¬ c.id = id) })) := by
  intro db id
  constructor
  · rintro ⟨p, hp, hpid⟩
    unfold deleteCommitment
    rw [if_pos]
    exact List.length_pos.mpr
      (List.ne_nil_of_mem (List.mem_filter.mpr ⟨hp, by simp [hpid]⟩))
  · intro hnone
    unfold deleteCommitment
    rw [if_neg]
    intro hpos
    rcases List.exists_mem_of_length_pos hpos with ⟨p, hpmem⟩
    have := List.mem_filter.mp hpmem
    exact hnone p this.1 (by simpa using this.2)

/-- C7 witness: deleting a concrete commitment with zero payments removes
it; a concrete commitment with one payment is protected. -/
theorem c7_delete_commitment_guard_witness :
    deleteCommitment ⟨[⟨1, "2025-03-001", "2025-03-15", "A", "", 100, statusActive, "t"⟩],
        [], 2, 1⟩ 1 =
      (DeleteOutcome.deleted, ⟨[], [], 2, 1⟩) ∧
    deleteCommitment ⟨[⟨1, "2025-03-001", "2025-03-15", "A", "", 100, statusActive, "t"⟩],
        [⟨1, 1, "cash", 40, "d"⟩], 2, 2⟩ 1 =
      (DeleteOutcome.conflict,
        ⟨[⟨1, "2025-03-001", "2025-03-15", "A", "", 100, statusActive, "t"⟩],
         [⟨1, 1, "cash", 40, "d"⟩], 2, 2⟩) := by
  constructor
  · have h := (c7_delete_commitment_guard
      ⟨[⟨1, "2025-03-001", "2025-03-15", "A", "", 100, statusActive, "t"⟩], [], 2, 1⟩ 1).2
      (by decide)
    rw [h]
    decide
  · exact (c7_delete_commitment_guard
      ⟨[⟨1, "2025-03-001", "2025-03-15", "A", "", 100, statusActive, "t"⟩],
       [⟨1, 1, "cash", 40, "d"⟩], 2, 2⟩ 1).1 ⟨⟨1, 1, "cash", 40, "d"⟩, by decide, by decide⟩

/-- Every cached registry entry holds the handle for its own tenant's
store file. -/
def RegistryWF (reg : Registry) : Prop :=
  ∀ p ∈ reg.tenantDbs, p.2.dbPath = tenantDbPath p.1

theorem getTenantDb_cached {reg : Registry} {id : Nat} {h : DbHandle}
    (hl : reg.tenantDbs.lookup id = some h) : getTenantDb reg id = (h, reg) := by
  unfold getTenantDb
  rw [hl]

theorem getTenantDb_miss {reg : Registry} {id : Nat}
    (hl : reg.tenantDbs.lookup id = none) : getTenantDb reg id = initTenantDb reg id := by
  unfold getTenantDb
  rw [hl]

theorem lookup_init_self (reg : Registry) (id : Nat) :
    ((initTenantDb reg id).2).tenantDbs.lookup id = some (initTenantDb reg id).1 := by
  unfold initTenantDb
  simp [List.lookup]

theorem lookup_mem : ∀ {l : List (Nat × DbHandle)} {i : Nat} {h : DbHandle},
    l.lookup i = some h → (i, h) ∈ l
  | [], i, h, hl => by simp [List.lookup] at hl
  | (a, b) :: t, i, h, hl => by
    by_cases hia : i = a
    · subst hia
      simp [List.lookup] at hl
      simp [hl]
    · have hba : (i == a) = false := beq_eq_false_iff_ne.mpr hia
      simp only [List.lookup, hba] at hl
      exact List.mem_cons_of_mem _ (lookup_mem hl)

/-- C8: `getTenantDb` is idempotent — a repeated call for the same tenant
id returns the same live handle and leaves the registry untouched (the
`tenantDbs` cache is populated lazily and an existing entry survives every
later call, for the life of the process); the handle a call returns opens
the deterministic store file `tenant_<id>.db`, and two different tenant
ids never resolve to the same store file. -/
theorem c8_tenant_registry :
    (∀ (reg : Registry) (id : Nat),
        getTenantDb (getTenantDb reg id).2 id = getTenantDb reg id) ∧
    (∀ (reg : Registry) (id : Nat), RegistryWF reg →
        (getTenantDb reg id).1.dbPath = tenantDbPath id ∧
        RegistryWF (getTenantDb reg id).2) ∧
    (∀ i j : Nat, i ≠ j → tenantDbPath i ≠ tenantDbPath j) ∧
    (∀ (reg : Registry) (i j : Nat) (h : DbHandle),
        reg.tenantDbs.lookup i = some h →
        ((getTenantDb reg j).2).tenantDbs.lookup i = some h) ∧
    RegistryWF emptyRegistry := by
  refine ⟨?_, ?_, ?_, ?_, ?_⟩
  · intro reg id
    cases hl : reg.tenantDbs.lookup id with
    | some h => rw [getTenantDb_cached hl, getTenantDb_cached hl]
    | none =>
      rw [getTenantDb_miss hl, getTenantDb_cached (lookup_init_self reg id)]
  · intro reg id hwf
    cases hl : reg.tenantDbs.lookup id with
    | some h =>
      rw [getTenantDb_cached hl]
      exact ⟨hwf (id, h) (lookup_mem hl), hwf⟩
    | none =>
      rw [getTenantDb_miss hl]
      refine ⟨rfl, ?_⟩
      intro p hp
      unfold initTenantDb at hp
      rcases List.mem_cons.mp hp with hnew | hold
      · rw [hnew]
      · exact hwf p hold
  · intro i j hne heq
    exact hne (tenantDbPath_inj heq)
  · intro reg i j h hl
    cases hl2 : reg.tenantDbs.lookup j with
    | some h2 => rw [getTenantDb_cached hl2]; exact hl
    | none =>
      rw [getTenantDb_miss hl2]
      unfold initTenantDb
      by_cases hij : i = j
      · subst hij
        rw [hl] at hl2
        exact absurd hl2 (by simp)
      · have hba : (i == j) = false := beq_eq_false_iff_ne.mpr hij
        simp only [List.lookup, hba]
        exact hl
  · intro p hp
    simp [emptyRegistry] at hp

/-- C8 witness: concrete distinct tenant ids resolve to distinct store
files, and resolving tenant 1 from a fresh registry opens
`tenant_1.db`. -/
theorem c8_tenant_registry_witness :
    tenantDbPath 1 ≠ tenantDbPath 2 ∧
    (getTenantDb emptyRegistry 1).1.dbPath = tenantDbPath 1 :=
  ⟨c8_tenant_registry.2.2.1 1 2 (by decide),
   (c8_tenant_registry.2.1 emptyRegistry 1
     (fun p hp => by simp [emptyRegistry] at hp)).1⟩

/-- C9 counterexample: for an admin with no `companyId` and no explicit
tenant id, `DELETE /commitments/:id` does not fail with a client error —
it resolves `getTenantDb(Number(undefined))`, i.e. the `tenant_NaN.db`
store key, and operates on that store. -/
theorem c9_admin_no_tenant_counterexample :
    deleteCommitmentRoute ⟨"admin", none⟩ none = .opOnStore .nan ∧
    deleteCommitmentRoute ⟨"admin", none⟩ none ≠ .clientError := by decide

/-- C9 amended: for an admin with no `companyId` and no explicit tenant
id, commitment listing returns the empty result and commitment creation
fails with the client error, as claimed — but search, update and delete of
commitments, payment listing and payment recording perform no tenant-id
check at all: each resolves the `NaN` store key (the literal
`tenant_NaN.db` file) and operates on that store instead of failing with a
client error. -/
theorem c9_admin_no_tenant_amended :
    listCommitmentsRoute ⟨"admin", none⟩ none = .emptyList ∧
    createCommitmentRoute ⟨"admin", none⟩ none = .clientError ∧
    searchCommitmentRoute ⟨"admin", none⟩ none = .opOnStore .nan ∧
    updateCommitmentRoute ⟨"admin", none⟩ none = .opOnStore .nan ∧
    deleteCommitmentRoute ⟨"admin", none⟩ none = .opOnStore .nan ∧
    listPaymentsRoute ⟨"admin", none⟩ none = .opOnStore .nan ∧
    recordPaymentRoute ⟨"admin", none⟩ none = .opOnStore .nan ∧
    tenantKeyPath .nan = "tenant_NaN.db" := by decide
